import Mathlib

/-!
Shallow embedding of the aaw-collection checkpoint ledger.

Source files: src/checkpoint.rs (the CheckpointData store) and src/lib.rs
(the Aaw ink! contract).

Modelling conventions:
 * AccountId is modelled as Nat (only equality on account ids is used).
 * u128 counts/indices are modelled as Nat: the count only ever grows by 1
   per call, so u128 overflow is unreachable and never matters.
 * u32 block numbers are modelled as Nat: they are only compared, never
   computed with, so wrap-around never matters.
 * u32 vote weights are modelled as Nat with checked arithmetic, matching
   the overflow-checked build that ink!/cargo-contract produces: the
   unchecked "votes - 1" / "votes + 1" in the source panic on under/overflow,
   which aborts (reverts) the whole call.  A panic is modelled as a "none"
   result; the state component of a "none" result is unchanged (revert).
 * ink storage Mappings are modelled as total functions into Option:
   Mapping::get is function application, Mapping::insert is a pointwise
   functional update, .unwrap() on a missing key is a panic ("none").
 * The while loop of the binary search is modelled with explicit fuel; a
   distinguished fuelOut outcome marks fuel exhaustion, and we prove that
   with the fuel the embedded functions supply it is never reached, so the
   fuel-based function agrees with the source's while loop.
 * The PSP34 token ledger is an external crate (out of scope per the spec);
   its mint/transfer effects are abstracted as a function parameter that
   transforms the opaque psp34 component of the contract state.
-/

/-- src/checkpoint.rs, struct Checkpoint (identical struct in src/lib.rs). -/
structure Checkpoint where
  from_block : Nat
  votes : Nat
deriving DecidableEq

/-- Outcome of the binary-search while loop shared by
get_checkpoint_at_block (src/checkpoint.rs) and get_votes_at_block
(src/lib.rs): an early return with an exact match, a normal loop exit with
the final value of lower, an unwrap panic on a missing key, or fuel
exhaustion (which we prove unreachable for the fuel the callers supply). -/
inductive LoopOut where
  | ret (cp : Checkpoint)
  | exit (idx : Nat)
  | panicked
  | fuelOut
deriving DecidableEq

/-- The while loop of src/checkpoint.rs lines 76-91 and src/lib.rs lines
74-86 (the two loops are textually identical): while upper > lower, probe
center = upper - (upper - lower) / 2 and narrow the interval. -/
def searchLoop (m : Nat → Option Checkpoint) (wanted : Nat) :
    Nat → Nat → Nat → LoopOut
  | 0, lower, upper =>
    if upper > lower then LoopOut.fuelOut else LoopOut.exit lower
  | fuel + 1, lower, upper =>
    if upper > lower then
      let center := upper - (upper - lower) / 2
      match m center with
      | none => LoopOut.panicked
      | some cp =>
        if cp.from_block = wanted then LoopOut.ret cp
        else if cp.from_block < wanted then searchLoop m wanted fuel center upper
        else searchLoop m wanted fuel lower (center - 1)
    else LoopOut.exit lower

/-- src/checkpoint.rs, struct CheckpointData: the two storage mappings. -/
structure CheckpointData where
  account_to_checkpoint_map : Nat → Nat → Option Checkpoint
  num_of_checkpoints_per_account : Nat → Option Nat

/-- Mapping::insert on the (account, index) → Checkpoint mapping. -/
def insertCheckpoint (m : Nat → Nat → Option Checkpoint) (a i : Nat)
    (cp : Checkpoint) : Nat → Nat → Option Checkpoint :=
  fun a2 i2 => if a2 = a ∧ i2 = i then some cp else m a2 i2

/-- Mapping::insert on the account → count mapping. -/
def insertCount (m : Nat → Option Nat) (a n : Nat) : Nat → Option Nat :=
  fun a2 => if a2 = a then some n else m a2

/-- The per-account checkpoint count as the code reads it:
num_of_checkpoints_per_account.get(account).unwrap_or(0). -/
def countOf (s : CheckpointData) (a : Nat) : Nat :=
  (s.num_of_checkpoints_per_account a).getD 0

/-- Checkpoint at an index, defaulted; used only to phrase hypotheses and
conclusions about populated indices. -/
def cpAt (m : Nat → Option Checkpoint) (i : Nat) : Checkpoint :=
  (m i).getD ⟨0, 0⟩

/-- src/checkpoint.rs, CheckpointData::new(). -/
def newCheckpointData : CheckpointData :=
  ⟨fun _ _ => none, fun _ => none⟩

/-- src/checkpoint.rs lines 28-40, get_last_checkpoint: None when the count
is 0, else the raw mapping lookup at index count - 1 (no unwrap there). -/
def get_last_checkpoint (s : CheckpointData) (account_id : Nat) :
    Option Checkpoint :=
  let num_checkpoints := countOf s account_id
  if num_checkpoints = 0 then none
  else s.account_to_checkpoint_map account_id (num_checkpoints - 1)

/-- src/checkpoint.rs lines 42-99, get_checkpoint_at_block.  The outer
Option is the panic layer (none = an unwrap failed or the loop ran out of
fuel); the inner Option is the Rust return value. -/
def get_checkpoint_at_block (s : CheckpointData)
    (account_id wanted_block current_block : Nat) :
    Option (Option Checkpoint) :=
  if wanted_block > current_block then some none
  else
    let num_checkpoints := countOf s account_id
    if num_checkpoints = 0 then some none
    else
      match s.account_to_checkpoint_map account_id 0 with
      | none => none
      | some first =>
        if first.from_block > wanted_block then some none
        else
          match searchLoop (s.account_to_checkpoint_map account_id)
              wanted_block num_checkpoints 0 (num_checkpoints - 1) with
          | LoopOut.ret cp => some (some cp)
          | LoopOut.exit idx =>
            match s.account_to_checkpoint_map account_id idx with
            | none => none
            | some cp => some (some cp)
          | LoopOut.panicked => none
          | LoopOut.fuelOut => none

/-- src/checkpoint.rs lines 101-148, add_new_checkpoint_to_account.
Returns the updated store, or none when the call panics (missing index
count - 1, or checked u32 over/underflow on the vote arithmetic), in which
case the transaction reverts and the store is unchanged. -/
def add_new_checkpoint_to_account (s : CheckpointData)
    (account : Nat) (increment : Bool) (current_block : Nat) :
    Option CheckpointData :=
  let num_of_checkpoints := countOf s account
  if num_of_checkpoints = 0 then
    some ⟨insertCheckpoint s.account_to_checkpoint_map account 0
            ⟨current_block, 1⟩,
          insertCount s.num_of_checkpoints_per_account account 1⟩
  else
    match s.account_to_checkpoint_map account (num_of_checkpoints - 1) with
    | none => none
    | some last_checkpoint =>
      let next_cp_votes : Option Nat :=
        if increment then
          if last_checkpoint.votes + 1 < 4294967296 then
            some (last_checkpoint.votes + 1)
          else none
        else
          if last_checkpoint.votes = 0 then none
          else some (last_checkpoint.votes - 1)
      match next_cp_votes with
      | none => none
      | some v =>
        some ⟨insertCheckpoint s.account_to_checkpoint_map account
                num_of_checkpoints ⟨current_block, v⟩,
              insertCount s.num_of_checkpoints_per_account account
                (num_of_checkpoints + 1)⟩

/-- States of the store reachable from CheckpointData::new() by successful
calls of the single mutation entry point add_new_checkpoint_to_account
(the two query methods take &self and cannot mutate). -/
inductive ReachableCD : CheckpointData → Prop
  | init : ReachableCD newCheckpointData
  | step (s : CheckpointData) (a : Nat) (inc : Bool) (cb : Nat)
      (s' : CheckpointData) : ReachableCD s →
      add_new_checkpoint_to_account s a inc cb = some s' → ReachableCD s'

/-- Minimal model of the external psp34 crate's PSP34Data: its internals
are out of scope (the spec treats the token ledger as an external
collaborator), so a single opaque-to-the-core component suffices; the
contract only threads it through. -/
structure PSP34Data where
  balances : Nat → Nat

/-- psp34::PSP34Error as used by src/lib.rs (the Custom variant). -/
inductive PSP34Error where
  | custom (msg : String)

/-- src/lib.rs, struct Aaw: the contract storage. -/
structure AawState where
  psp34 : PSP34Data
  owner : Nat
  checkpoints : Nat → Nat → Option Checkpoint
  num_checkpoints : Nat → Option Nat

/-- src/lib.rs, Aaw::new(): caller becomes owner, both checkpoint
mappings start empty. -/
def aawNew (caller : Nat) : AawState :=
  ⟨⟨fun _ => 0⟩, caller, fun _ _ => none, fun _ => none⟩

/-- An Aaw contract state whose checkpoint mappings are those of a given
CheckpointData store; used to relate the two structurally identical
variants of the search code. -/
def aawOf (o : Nat) (s : CheckpointData) : AawState :=
  ⟨⟨fun _ => 0⟩, o, s.account_to_checkpoint_map,
    s.num_of_checkpoints_per_account⟩

/-- src/lib.rs lines 46-57, get_current_votes: 0 when the count is 0, else
map_or(0, votes) of the mapping lookup at count - 1. -/
def get_current_votes (s : AawState) (account_id : Nat) : Nat :=
  let num_checkpoints := (s.num_checkpoints account_id).getD 0
  if num_checkpoints = 0 then 0
  else
    match s.checkpoints account_id (num_checkpoints - 1) with
    | none => 0
    | some c => c.votes

/-- src/lib.rs lines 59-90, get_votes_at_block.  Note: unlike
get_checkpoint_at_block in src/checkpoint.rs, this variant has NO check
that the checkpoint at index 0 is old enough.  none = panic. -/
def get_votes_at_block (s : AawState) (account_id block current_block : Nat) :
    Option Nat :=
  if block > current_block then some 0
  else
    let num_checkpoints := (s.num_checkpoints account_id).getD 0
    if num_checkpoints = 0 then some 0
    else
      match searchLoop (s.checkpoints account_id) block num_checkpoints
          0 (num_checkpoints - 1) with
      | LoopOut.ret cp => some cp.votes
      | LoopOut.exit idx =>
        (s.checkpoints account_id idx).map Checkpoint.votes
      | LoopOut.panicked => none
      | LoopOut.fuelOut => none

/-- src/lib.rs lines 202-214, PSP34Mintable::mint for Aaw: owner check,
then the external psp34.mint call (abstracted as psp34_mint), then event
emission (no storage effect).  The checkpoint mappings are not touched. -/
def mint (psp34_mint : PSP34Data → Nat → Except PSP34Error PSP34Data)
    (s : AawState) (caller account : Nat) : Except PSP34Error AawState :=
  if caller ≠ s.owner then
    Except.error (PSP34Error.custom
      "this message is only callable by the owner of the contract")
  else
    match psp34_mint s.psp34 account with
    | Except.error e => Except.error e
    | Except.ok p => Except.ok { s with psp34 := p }

/-- src/lib.rs lines 176-181, PSP34::transfer for Aaw: the external
psp34.transfer call (abstracted), then event emission.  The checkpoint
mappings are not touched. -/
def transfer
    (psp34_transfer :
      PSP34Data → Nat → Nat → Nat → List Nat → Except PSP34Error PSP34Data)
    (s : AawState) (caller toAcct id : Nat) (data : List Nat) :
    Except PSP34Error AawState :=
  match psp34_transfer s.psp34 caller toAcct id data with
  | Except.error e => Except.error e
  | Except.ok p => Except.ok { s with psp34 := p }

/- Concrete states used to evaluate the code on specific inputs. -/

/-- A one-account store whose log for account 1 is the single checkpoint
(from_block 10, votes 1). -/
def cdOne : CheckpointData :=
  ⟨fun a i => if a = 1 ∧ i = 0 then some ⟨10, 1⟩ else none,
   fun a => if a = 1 then some 1 else none⟩

/-- A store whose last checkpoint for account 1 has votes 0. -/
def cdZeroVotes : CheckpointData :=
  ⟨fun a i => if a = 1 ∧ i = 0 then some ⟨5, 0⟩ else none,
   fun a => if a = 1 then some 1 else none⟩

/-- The spec's worked example: account 1 has checkpoints at time steps
10, 10, 25, 40 with votes 1, 2, 1, 2. -/
def logC6 : Nat → Option Checkpoint := fun i =>
  if i = 0 then some ⟨10, 1⟩
  else if i = 1 then some ⟨10, 2⟩
  else if i = 2 then some ⟨25, 1⟩
  else if i = 3 then some ⟨40, 2⟩
  else none

/-- Store holding the spec's worked-example log for account 1. -/
def cdC6 : CheckpointData :=
  ⟨fun a i => if a = 1 then logC6 i else none,
   fun a => if a = 1 then some 4 else none⟩

/-- A two-checkpoint store for account 1: (3, votes 1), (7, votes 2). -/
def cdTwo : CheckpointData :=
  ⟨fun a i =>
    if a = 1 ∧ i = 0 then some ⟨3, 1⟩
    else if a = 1 ∧ i = 1 then some ⟨7, 2⟩ else none,
   fun a => if a = 1 then some 2 else none⟩

/-- A one-checkpoint store for account 1: (7, votes 3). -/
def cdSeven : CheckpointData :=
  ⟨fun a i => if a = 1 ∧ i = 0 then some ⟨7, 3⟩ else none,
   fun a => if a = 1 then some 1 else none⟩

/-- The result of appending (increment) at block 12 to cdOne. -/
def cdOneStepped : CheckpointData :=
  (add_new_checkpoint_to_account cdOne 1 true 12).getD newCheckpointData

/- Theorems. -/

/-- A populated index holds exactly its defaulted checkpoint. -/
theorem cpAt_eq (m : Nat → Option Checkpoint) (i : Nat)
    (h : (m i).isSome) : m i = some (cpAt m i) := by
  cases hm : m i with
  | none => rw [hm] at h; cases h
  | some cp => simp [cpAt, hm]

/-- The probe index center = upper - (upper - lower) / 2 lies strictly
inside (lower, upper], so both narrowing steps strictly shrink the
interval. -/
theorem center_bounds (lower upper : Nat) (h : lower < upper) :
    lower < upper - (upper - lower) / 2 ∧
      upper - (upper - lower) / 2 ≤ upper := by
  have h2 : (upper - lower) / 2 < upper - lower :=
    Nat.div_lt_self (by omega) (by omega)
  omega

/-- With fuel at least the interval width, the loop never exhausts its
fuel: the source's while loop terminates. -/
theorem searchLoop_ne_fuelOut (m : Nat → Option Checkpoint) (wanted : Nat) :
    ∀ fuel lower upper, upper - lower ≤ fuel →
      searchLoop m wanted fuel lower upper ≠ LoopOut.fuelOut := by
  intro fuel
  induction fuel with
  | zero =>
    intro lower upper hgap
    have hng : ¬ upper > lower := by omega
    simp [searchLoop, hng]
  | succ n ih =>
    intro lower upper hgap
    by_cases hlt : upper > lower
    · have hc := center_bounds lower upper hlt
      simp only [searchLoop, hlt, if_true]
      cases hm : m (upper - (upper - lower) / 2) with
      | none => simp
      | some cp =>
        by_cases he : cp.from_block = wanted
        · simp [he]
        · by_cases hl : cp.from_block < wanted
          · simpa [he, hl] using ih (upper - (upper - lower) / 2) upper
              (by omega)
          · simpa [he, hl] using ih lower (upper - (upper - lower) / 2 - 1)
              (by omega)
    · simp [searchLoop, hlt]

/-- With fuel at least the interval width and every index of the interval
populated, the loop either returns an exact match or exits at an index
inside the interval: no unwrap panics, no fuel exhaustion. -/
theorem searchLoop_shape (m : Nat → Option Checkpoint) (wanted : Nat) :
    ∀ fuel lower upper, lower ≤ upper → upper - lower ≤ fuel →
      (∀ i, lower ≤ i → i ≤ upper → (m i).isSome) →
      (∃ cp, searchLoop m wanted fuel lower upper = LoopOut.ret cp) ∨
      (∃ idx, lower ≤ idx ∧ idx ≤ upper ∧
        searchLoop m wanted fuel lower upper = LoopOut.exit idx) := by
  intro fuel
  induction fuel with
  | zero =>
    intro lower upper hle hgap _
    have hng : ¬ upper > lower := by omega
    right
    exact ⟨lower, le_refl _, hle, by simp [searchLoop, hng]⟩
  | succ n ih =>
    intro lower upper hle hgap hpop
    by_cases hlt : upper > lower
    · have hc := center_bounds lower upper hlt
      have hms : (m (upper - (upper - lower) / 2)).isSome :=
        hpop _ (by omega) (by omega)
      cases hm : m (upper - (upper - lower) / 2) with
      | none => rw [hm] at hms; cases hms
      | some cp =>
        by_cases he : cp.from_block = wanted
        · left
          exact ⟨cp, by simp [searchLoop, hlt, hm, he]⟩
        · by_cases hl : cp.from_block < wanted
          · have := ih (upper - (upper - lower) / 2) upper (by omega)
              (by omega) (fun i h1 h2 => hpop i (by omega) h2)
            rcases this with ⟨cp2, hres⟩ | ⟨idx, h1, h2, hres⟩
            · left; exact ⟨cp2, by simp [searchLoop, hlt, hm, he, hl, hres]⟩
            · right
              exact ⟨idx, by omega, h2,
                by simp [searchLoop, hlt, hm, he, hl, hres]⟩
          · have := ih lower (upper - (upper - lower) / 2 - 1) (by omega)
              (by omega) (fun i h1 h2 => hpop i h1 (by omega))
            rcases this with ⟨cp2, hres⟩ | ⟨idx, h1, h2, hres⟩
            · left; exact ⟨cp2, by simp [searchLoop, hlt, hm, he, hl, hres]⟩
            · right
              exact ⟨idx, h1, by omega,
                by simp [searchLoop, hlt, hm, he, hl, hres]⟩
    · right
      exact ⟨lower, le_refl _, hle, by simp [searchLoop, hlt]⟩

/-- Main loop invariant of the floor search.  If every index below num is
populated, the time steps are non-decreasing up to num, the checkpoint at
lower is already at or below the wanted step, and every index above upper
(below num) is strictly beyond it, then the loop finds a checkpoint whose
time step is the greatest recorded one not exceeding the wanted step. -/
theorem searchLoop_floor (m : Nat → Option Checkpoint) (wanted num : Nat)
    (hpop : ∀ i, i < num → (m i).isSome)
    (hsort : ∀ j, j < num → ∀ i, i ≤ j →
      (cpAt m i).from_block ≤ (cpAt m j).from_block) :
    ∀ fuel lower upper, lower ≤ upper → upper < num → upper - lower ≤ fuel →
      (cpAt m lower).from_block ≤ wanted →
      (∀ i, upper < i → i < num → wanted < (cpAt m i).from_block) →
      ∃ cp, cp.from_block ≤ wanted ∧
        (∀ i, i < num → (cpAt m i).from_block ≤ wanted →
          (cpAt m i).from_block ≤ cp.from_block) ∧
        (searchLoop m wanted fuel lower upper = LoopOut.ret cp ∨
         ∃ idx, idx < num ∧ m idx = some cp ∧
           searchLoop m wanted fuel lower upper = LoopOut.exit idx) := by
  intro fuel
  induction fuel with
  | zero =>
    intro lower upper hle hnum hgap hlow hup
    have heq : lower = upper := by omega
    have hng : ¬ upper > lower := by omega
    refine ⟨cpAt m lower, hlow, ?_, Or.inr ⟨lower, by omega,
      cpAt_eq m lower (hpop _ (by omega)), by simp [searchLoop, hng]⟩⟩
    intro i hi hwi
    by_cases hil : i ≤ lower
    · exact hsort lower (by omega) i hil
    · exact absurd hwi (by have := hup i (by omega) hi; omega)
  | succ n ih =>
    intro lower upper hle hnum hgap hlow hup
    by_cases hlt : upper > lower
    · have hc := center_bounds lower upper hlt
      have hms : (m (upper - (upper - lower) / 2)).isSome :=
        hpop _ (by omega)
      have hm : m (upper - (upper - lower) / 2) =
          some (cpAt m (upper - (upper - lower) / 2)) := cpAt_eq m _ hms
      set cpc := cpAt m (upper - (upper - lower) / 2) with hcpc
      by_cases he : cpc.from_block = wanted
      · refine ⟨cpc, by omega, ?_, Or.inl (by simp [searchLoop, hlt, hm, he])⟩
        intro i hi hwi
        omega
      · by_cases hl : cpc.from_block < wanted
        · have := ih (upper - (upper - lower) / 2) upper (by omega) hnum
            (by omega) (by rw [← hcpc]; omega) hup
          rcases this with ⟨cp, h1, h2, h3⟩
          refine ⟨cp, h1, h2, ?_⟩
          rcases h3 with h3 | ⟨idx, h4, h5, h6⟩
          · exact Or.inl (by simp [searchLoop, hlt, hm, he, hl, h3])
          · exact Or.inr ⟨idx, h4, h5,
              by simp [searchLoop, hlt, hm, he, hl, h6]⟩
        · have hgt : wanted < cpc.from_block := by omega
          have hup2 : ∀ i, upper - (upper - lower) / 2 - 1 < i → i < num →
              wanted < (cpAt m i).from_block := by
            intro i hii hinum
            by_cases hiu : upper < i
            · exact hup i hiu hinum
            · calc wanted < cpc.from_block := hgt
                _ ≤ (cpAt m i).from_block :=
                  hsort i hinum (upper - (upper - lower) / 2) (by omega)
          have := ih lower (upper - (upper - lower) / 2 - 1) (by omega)
            (by omega) (by omega) hlow hup2
          rcases this with ⟨cp, h1, h2, h3⟩
          refine ⟨cp, h1, h2, ?_⟩
          rcases h3 with h3 | ⟨idx, h4, h5, h6⟩
          · exact Or.inl (by simp [searchLoop, hlt, hm, he, hl, h3])
          · exact Or.inr ⟨idx, h4, h5,
              by simp [searchLoop, hlt, hm, he, hl, h6]⟩
    · have heq : lower = upper := by omega
      have hng : ¬ upper > lower := by omega
      refine ⟨cpAt m lower, hlow, ?_, Or.inr ⟨lower, by omega,
        cpAt_eq m lower (hpop _ (by omega)), by simp [searchLoop, hng]⟩⟩
      intro i hi hwi
      by_cases hil : i ≤ lower
      · exact hsort lower (by omega) i hil
      · exact absurd hwi (by have := hup i (by omega) hi; omega)

/-- When every probed index holds a time step strictly beyond the wanted
one, the loop walks the upper bound all the way down and exits at the
initial lower bound. -/
theorem searchLoop_all_greater (m : Nat → Option Checkpoint) (wanted : Nat) :
    ∀ fuel lower upper, upper - lower ≤ fuel →
      (∀ i, lower < i → i ≤ upper → (m i).isSome) →
      (∀ i, lower < i → i ≤ upper → wanted < (cpAt m i).from_block) →
      searchLoop m wanted fuel lower upper = LoopOut.exit lower := by
  intro fuel
  induction fuel with
  | zero =>
    intro lower upper hgap _ _
    have hng : ¬ upper > lower := by omega
    simp [searchLoop, hng]
  | succ n ih =>
    intro lower upper hgap hpop hgt
    by_cases hlt : upper > lower
    · have hc := center_bounds lower upper hlt
      have hms : (m (upper - (upper - lower) / 2)).isSome :=
        hpop _ (by omega) (by omega)
      have hm : m (upper - (upper - lower) / 2) =
          some (cpAt m (upper - (upper - lower) / 2)) := cpAt_eq m _ hms
      have hcgt : wanted < (cpAt m (upper - (upper - lower) / 2)).from_block :=
        hgt _ (by omega) (by omega)
      have he : ¬ (cpAt m (upper - (upper - lower) / 2)).from_block = wanted :=
        by omega
      have hl : ¬ (cpAt m (upper - (upper - lower) / 2)).from_block < wanted :=
        by omega
      have := ih lower (upper - (upper - lower) / 2 - 1) (by omega)
        (fun i h1 h2 => hpop i h1 (by omega))
        (fun i h1 h2 => hgt i h1 (by omega))
      simp [searchLoop, hlt, hm, he, hl, this]
    · simp [searchLoop, hlt]

/-- Pointwise evaluation of insertCheckpoint. -/
theorem insertCheckpoint_eval (m : Nat → Nat → Option Checkpoint) (a i : Nat)
    (cp : Checkpoint) (b j : Nat) :
    insertCheckpoint m a i cp b j =
      if b = a ∧ j = i then some cp else m b j := rfl

/-- Pointwise evaluation of insertCount. -/
theorem insertCount_eval (m : Nat → Option Nat) (a n b : Nat) :
    insertCount m a n b = if b = a then some n else m b := rfl

/-- Appending a checkpoint at the current count and bumping the count
preserves the keys-are-exactly-the-indices-below-count invariant. -/
theorem populated_after_insert
    (mp : Nat → Nat → Option Checkpoint) (nm : Nat → Option Nat)
    (a n : Nat) (cp : Checkpoint)
    (ih : ∀ b i, (mp b i).isSome ↔ i < (nm b).getD 0)
    (hn : n = (nm a).getD 0) :
    ∀ b i, (insertCheckpoint mp a n cp b i).isSome ↔
      i < (insertCount nm a (n + 1) b).getD 0 := by
  intro b i
  rw [insertCheckpoint_eval, insertCount_eval]
  by_cases hba : b = a
  · subst hba
    by_cases hi : i = n
    · subst hi
      simp
    · simp only [hi, and_false, if_false, eq_self_iff_true, true_and,
        if_true, Option.getD_some]
      constructor
      · intro hs
        have := (ih b i).mp hs
        omega
      · intro hlt
        exact (ih b i).mpr (by omega)
  · simp only [hba, false_and, if_false, if_neg hba]
    exact ih b i

/-- Storage invariant: in every reachable store, the populated checkpoint
keys of an account are exactly the indices below its stored count. -/
theorem reachable_populated (s : CheckpointData) (h : ReachableCD s) :
    ∀ b i, (s.account_to_checkpoint_map b i).isSome ↔ i < countOf s b := by
  induction h with
  | init => intro b i; simp [newCheckpointData, countOf]
  | step s a inc cb s' hr hstep ih =>
    dsimp only [add_new_checkpoint_to_account] at hstep
    by_cases h0 : countOf s a = 0
    · rw [if_pos h0] at hstep
      injection hstep with hs'
      subst hs'
      exact populated_after_insert s.account_to_checkpoint_map
        s.num_of_checkpoints_per_account a 0 ⟨cb, 1⟩ ih h0.symm
    · rw [if_neg h0] at hstep
      split at hstep
      · injection hstep
      · split at hstep
        · injection hstep
        · injection hstep with hs'
          subst hs'
          exact populated_after_insert s.account_to_checkpoint_map
            s.num_of_checkpoints_per_account a (countOf s a) _ ih rfl

/-- Successful appends replace the store by an insert of one checkpoint at
index countOf s a (with some vote value v) plus a count bump. -/
theorem append_state_cases (s : CheckpointData) (a cb : Nat) (inc : Bool)
    (s' : CheckpointData)
    (h : add_new_checkpoint_to_account s a inc cb = some s') :
    ∃ v, s' = ⟨insertCheckpoint s.account_to_checkpoint_map a (countOf s a)
        ⟨cb, v⟩,
      insertCount s.num_of_checkpoints_per_account a (countOf s a + 1)⟩ := by
  dsimp only [add_new_checkpoint_to_account] at h
  by_cases h0 : countOf s a = 0
  · rw [if_pos h0] at h
    injection h with hs'
    refine ⟨1, ?_⟩
    rw [h0]
    exact hs'.symm
  · rw [if_neg h0] at h
    split at h
    · injection h
    · split at h
      · injection h
      · injection h with hs'
        exact ⟨_, hs'.symm⟩

/-- C1 (code bug): mint and transfer in src/lib.rs never touch the
checkpoint mappings, so after a successful owner-mint to account 1 at any
block, followed by a successful transfer from account 1 to account 2, the
current weights of both accounts are 0 and account 1 still has no
checkpoint history — whereas the claim requires weights to equal the net
event counts (here 0 and 1) with a checkpoint appended per event.  The
external psp34 effects are instantiated with a trivially succeeding
ledger. -/
theorem c1_mint_transfer_append_no_checkpoint :
    Except.map (fun s => get_current_votes s 1)
        (mint (fun p _ => Except.ok p) (aawNew 0) 0 1) = Except.ok 0 ∧
    Except.map (fun s => s.num_checkpoints 1)
        (mint (fun p _ => Except.ok p) (aawNew 0) 0 1) = Except.ok none ∧
    Except.map (fun s => get_current_votes s 2)
        (Except.bind (mint (fun p _ => Except.ok p) (aawNew 0) 0 1)
          (fun s => transfer (fun p _ _ _ _ => Except.ok p) s 1 2 0 [])) =
      Except.ok 0 := by
  exact ⟨rfl, rfl, rfl⟩

/-- C3 (code bug): for an account whose only checkpoint is at time step 10,
querying time step 5 (current block 20) precedes the first checkpoint.
The store-level get_checkpoint_at_block correctly answers None, but
get_votes_at_block in src/lib.rs lacks the index-0 short-circuit and
answers the first checkpoint's weight 1 instead of 0. -/
theorem c3_weight_at_zero_cases :
    get_votes_at_block (aawOf 0 cdOne) 1 5 20 = some 1 ∧
    get_checkpoint_at_block cdOne 1 5 20 = some none ∧
    get_votes_at_block (aawOf 0 cdOne) 1 25 20 = some 0 ∧
    get_votes_at_block (aawOf 0 cdOne) 2 5 20 = some 0 := by decide

/-- C4 (confirmed): when the most recent checkpoint of a non-empty account
has weight 0, a decrementing append hits the checked u32 subtraction
"last.votes - 1" and panics, aborting (reverting) the call: the result is
none, no wrapped or clamped weight is ever written, and the reverted store
is unchanged. -/
theorem c4_decrement_at_zero_rejected (s : CheckpointData) (a cb : Nat)
    (last : Checkpoint) (h0 : countOf s a ≠ 0)
    (hlast : s.account_to_checkpoint_map a (countOf s a - 1) = some last)
    (hz : last.votes = 0) :
    add_new_checkpoint_to_account s a false cb = none := by
  dsimp only [add_new_checkpoint_to_account]
  rw [if_neg h0, hlast]
  simp [hz]

/-- Witness for C4 at a concrete store whose last checkpoint for account 1
has weight 0. -/
theorem c4_witness :
    countOf cdZeroVotes 1 ≠ 0 ∧
    cdZeroVotes.account_to_checkpoint_map 1 (countOf cdZeroVotes 1 - 1) =
      some ⟨5, 0⟩ ∧
    add_new_checkpoint_to_account cdZeroVotes 1 false 9 = none :=
  ⟨by decide, by decide,
    c4_decrement_at_zero_rejected cdZeroVotes 1 9 ⟨5, 0⟩ (by decide)
      (by decide) rfl⟩

/-- C5 (code bug): for an account with zero checkpoints the code ignores
the increment flag entirely: a decrementing append on the fresh store does
NOT fail — it succeeds and writes checkpoint (time_step, weight 1) at
index 0 with count 1, exactly as an increment would, whereas the claim
requires the decrease to be rejected. -/
theorem c5_decrement_on_empty_not_rejected :
    Option.map
        (fun s => (s.account_to_checkpoint_map 1 0,
          s.num_of_checkpoints_per_account 1))
        (add_new_checkpoint_to_account newCheckpointData 1 false 5) =
      some (some ⟨5, 1⟩, some 1) ∧
    Option.map
        (fun s => (s.account_to_checkpoint_map 1 0,
          s.num_of_checkpoints_per_account 1))
        (add_new_checkpoint_to_account newCheckpointData 1 true 5) =
      some (some ⟨5, 1⟩, some 1) := by
  exact ⟨rfl, rfl⟩

/-- C7 (confirmed): on an account with at least one checkpoint, a
successful append reads the checkpoint at index count - 1, writes
(time_step, last.votes ± 1) at index count, bumps the count to count + 1,
and leaves every index below count untouched.  The two hypotheses on the
vote value rule out the checked-arithmetic panics (decrement at weight 0
is claim C4; increment at u32::MAX likewise aborts). -/
theorem c7_append_reads_last_writes_next (s : CheckpointData)
    (a cb : Nat) (inc : Bool) (last : Checkpoint)
    (h0 : countOf s a ≠ 0)
    (hlast : s.account_to_checkpoint_map a (countOf s a - 1) = some last)
    (hof : inc = true → last.votes + 1 < 4294967296)
    (huf : inc = false → last.votes ≠ 0) :
    Option.map (fun s' => s'.account_to_checkpoint_map a (countOf s a))
        (add_new_checkpoint_to_account s a inc cb) =
      some (some ⟨cb, if inc then last.votes + 1 else last.votes - 1⟩) ∧
    Option.map (fun s' => s'.num_of_checkpoints_per_account a)
        (add_new_checkpoint_to_account s a inc cb) =
      some (some (countOf s a + 1)) ∧
    ∀ i, i < countOf s a →
      Option.map (fun s' => s'.account_to_checkpoint_map a i)
          (add_new_checkpoint_to_account s a inc cb) =
        some (s.account_to_checkpoint_map a i) := by
  dsimp only [add_new_checkpoint_to_account]
  rw [if_neg h0, hlast]
  cases inc with
  | false =>
    have hnz := huf rfl
    refine ⟨?_, ?_, ?_⟩
    · simp [hnz, insertCheckpoint_eval]
    · simp [hnz, insertCount_eval]
    · intro i hi
      simp [hnz, insertCheckpoint_eval, show ¬i = countOf s a by omega]
  | true =>
    have hok := hof rfl
    refine ⟨?_, ?_, ?_⟩
    · simp [hok, insertCheckpoint_eval]
    · simp [hok, insertCount_eval]
    · intro i hi
      simp [hok, insertCheckpoint_eval, show ¬i = countOf s a by omega]

/-- Witness for C7: appending an increment at block 12 to a store whose
account 1 has the single checkpoint (10, 1) writes (12, 2) at index 1,
stores count 2, and preserves index 0. -/
theorem c7_witness :
    countOf cdOne 1 ≠ 0 ∧
    Option.map (fun s' => s'.account_to_checkpoint_map 1 (countOf cdOne 1))
        (add_new_checkpoint_to_account cdOne 1 true 12) =
      some (some ⟨12, 2⟩) ∧
    Option.map (fun s' => s'.num_of_checkpoints_per_account 1)
        (add_new_checkpoint_to_account cdOne 1 true 12) =
      some (some 2) ∧
    Option.map (fun s' => s'.account_to_checkpoint_map 1 0)
        (add_new_checkpoint_to_account cdOne 1 true 12) =
      some (cdOne.account_to_checkpoint_map 1 0) := by
  have h := c7_append_reads_last_writes_next cdOne 1 12 true ⟨10, 1⟩
    (by decide) (by decide) (fun _ => by decide)
    (fun hf => Bool.noConfusion hf)
  exact ⟨by decide, by simpa using h.1, by simpa using h.2.1,
    h.2.2 0 (by decide)⟩

/-- C8 (confirmed): every successful append is append-only: all populated
indices of every account are preserved verbatim, no per-account count
decreases (the target account's count becomes count + 1), and
get_last_checkpoint immediately afterwards reads exactly the newly written
entry at index count, which is populated. -/
theorem c8_append_only (s : CheckpointData) (a cb : Nat) (inc : Bool)
    (s' : CheckpointData)
    (h : add_new_checkpoint_to_account s a inc cb = some s') :
    (∀ b i, i < countOf s b →
      s'.account_to_checkpoint_map b i = s.account_to_checkpoint_map b i) ∧
    (∀ b, countOf s b ≤ countOf s' b) ∧
    countOf s' a = countOf s a + 1 ∧
    get_last_checkpoint s' a = s'.account_to_checkpoint_map a (countOf s a) ∧
    (s'.account_to_checkpoint_map a (countOf s a)).isSome := by
  obtain ⟨v, rfl⟩ := append_state_cases s a cb inc s' h
  have hcount : ∀ b,
      countOf ⟨insertCheckpoint s.account_to_checkpoint_map a (countOf s a)
          ⟨cb, v⟩,
        insertCount s.num_of_checkpoints_per_account a (countOf s a + 1)⟩ b =
        if b = a then countOf s a + 1 else countOf s b := by
    intro b
    by_cases hba : b = a <;> simp [countOf, insertCount_eval, hba]
  refine ⟨?_, ?_, ?_, ?_, ?_⟩
  · intro b i hi
    dsimp only
    rw [insertCheckpoint_eval, if_neg]
    rintro ⟨rfl, rfl⟩
    omega
  · intro b
    rw [hcount b]
    by_cases hba : b = a
    · rw [if_pos hba, hba]
      omega
    · rw [if_neg hba]
  · rw [hcount a, if_pos rfl]
  · dsimp only [get_last_checkpoint]
    rw [hcount a, if_pos rfl]
    simp
  · dsimp only
    rw [insertCheckpoint_eval, if_pos ⟨rfl, rfl⟩]
    rfl

/-- Witness for C8: stepping cdOne by an increment at block 12. -/
theorem c8_witness :
    add_new_checkpoint_to_account cdOne 1 true 12 = some cdOneStepped ∧
    cdOneStepped.account_to_checkpoint_map 1 0 =
      cdOne.account_to_checkpoint_map 1 0 ∧
    countOf cdOne 1 ≤ countOf cdOneStepped 1 ∧
    countOf cdOneStepped 1 = countOf cdOne 1 + 1 ∧
    get_last_checkpoint cdOneStepped 1 =
      cdOneStepped.account_to_checkpoint_map 1 (countOf cdOne 1) := by
  have h := c8_append_only cdOne 1 12 true cdOneStepped rfl
  exact ⟨rfl, h.1 1 0 (by decide), h.2.1 1, h.2.2.1, h.2.2.2.1⟩

/-- C9 (confirmed): the binary-search loop terminates.  The probe index
center = upper - (upper - lower) / 2 always satisfies
lower < center ≤ upper, so both narrowing steps (lower := center and
upper := center - 1) strictly shrink the interval; when the gap is exactly
1 the probe equals upper, so one comparison resolves the range; and with
fuel at least the interval width the fuel-instrumented loop never reaches
the fuel-exhaustion marker, i.e. the source's while loop finishes. -/
theorem c9_loop_terminates (m : Nat → Option Checkpoint)
    (wanted fuel lower upper : Nat) (h1 : lower < upper)
    (h2 : upper - lower ≤ fuel) :
    (lower < upper - (upper - lower) / 2 ∧
      upper - (upper - lower) / 2 ≤ upper) ∧
    (upper - lower = 1 → upper - (upper - lower) / 2 = upper) ∧
    searchLoop m wanted fuel lower upper ≠ LoopOut.fuelOut :=
  ⟨center_bounds lower upper h1,
   fun hgap => by rw [hgap]; simp,
   searchLoop_ne_fuelOut m wanted fuel lower upper h2⟩

/-- Witness for C9 on the interval [0, 1] with fuel 1. -/
theorem c9_witness :
    (0 < 1 - (1 - 0) / 2 ∧ 1 - (1 - 0) / 2 ≤ 1) ∧
    (1 - 0 = 1 → 1 - (1 - 0) / 2 = 1) ∧
    searchLoop (fun _ => none) 0 1 0 1 ≠ LoopOut.fuelOut :=
  c9_loop_terminates (fun _ => none) 0 1 0 1 (by decide) (by decide)

/-- C10 (confirmed): in every store reachable from CheckpointData::new()
by appends, the populated keys (account, 0) … (account, count - 1) are
exactly the indices below the stored count; consequently
get_checkpoint_at_block never panics (never hits its unwrap branches nor
runs out of fuel), the read of index count - 1 performed inside
add_new_checkpoint_to_account succeeds, and get_last_checkpoint on a
non-empty account finds its checkpoint. -/
theorem c10_reachable_no_unwrap_failure (s : CheckpointData)
    (h : ReachableCD s) :
    (∀ b i, (s.account_to_checkpoint_map b i).isSome ↔ i < countOf s b) ∧
    (∀ a w c, get_checkpoint_at_block s a w c ≠ none) ∧
    (∀ a, countOf s a ≠ 0 →
      (s.account_to_checkpoint_map a (countOf s a - 1)).isSome) ∧
    (∀ a, countOf s a ≠ 0 → (get_last_checkpoint s a).isSome) := by
  have hpop := reachable_populated s h
  refine ⟨hpop, ?_, ?_, ?_⟩
  · intro a w c
    dsimp only [get_checkpoint_at_block]
    by_cases hwc : w > c
    · simp [hwc]
    · rw [if_neg hwc]
      by_cases h0 : countOf s a = 0
      · simp [h0]
      · rw [if_neg h0]
        split
        · rename_i heq
          have hs0 := (hpop a 0).mpr (show 0 < countOf s a by omega)
          rw [heq] at hs0
          exact absurd hs0 (by simp)
        · rename_i first heq
          by_cases hfb : first.from_block > w
          · simp [hfb]
          · rw [if_neg hfb]
            have hshape := searchLoop_shape (s.account_to_checkpoint_map a) w
              (countOf s a) 0 (countOf s a - 1) (by omega) (by omega)
              (fun i hi1 hi2 => (hpop a i).mpr (by omega))
            rcases hshape with ⟨cp, hres⟩ | ⟨idx, hid1, hid2, hres⟩ <;>
              rw [hres]
            · simp
            · have hsi := (hpop a idx).mpr (by omega)
              cases hmi : s.account_to_checkpoint_map a idx with
              | none => rw [hmi] at hsi; exact absurd hsi (by simp)
              | some cp => simp [hmi]
  · intro a h0
    exact (hpop a _).mpr (by omega)
  · intro a h0
    dsimp only [get_last_checkpoint]
    rw [if_neg h0]
    exact (hpop a _).mpr (by omega)

/-- Witness for C10 at the freshly constructed store. -/
theorem c10_witness :
    get_checkpoint_at_block newCheckpointData 1 0 5 ≠ none :=
  (c10_reachable_no_unwrap_failure newCheckpointData ReachableCD.init).2.1 1 0 5

/-- C2 counterexample: account 1 holds the single checkpoint (7, 3); no
checkpoint has time step ≤ 2, so the claim requires the weight query to
answer 0 — but get_votes_at_block (which lacks the index-0 short-circuit)
answers 3, the weight of the first checkpoint, while the store-level
get_checkpoint_at_block correctly answers None. -/
theorem c2_counterexample :
    get_votes_at_block (aawOf 0 cdSeven) 1 2 9 = some 3 ∧
    get_checkpoint_at_block cdSeven 1 2 9 = some none := by decide

/-- C2 amended: for a populated, non-decreasing log queried at
wanted ≤ current: (1) when some checkpoint has time step ≤ wanted, both
get_checkpoint_at_block and get_votes_at_block answer one and the same
checkpoint cp whose time step is the greatest recorded time step not
exceeding the query; (2) when no checkpoint does, get_checkpoint_at_block
answers None, but get_votes_at_block (missing the index-0 short-circuit)
answers the votes of the checkpoint at index 0 instead of 0. -/
theorem c2_floor_search_correct (s : CheckpointData)
    (a wanted current o : Nat)
    (hpop : ∀ i, i < countOf s a → (s.account_to_checkpoint_map a i).isSome)
    (hsort : ∀ j, j < countOf s a → ∀ i, i ≤ j →
      (cpAt (s.account_to_checkpoint_map a) i).from_block ≤
        (cpAt (s.account_to_checkpoint_map a) j).from_block)
    (hwc : wanted ≤ current) :
    ((∃ i, i < countOf s a ∧
        (cpAt (s.account_to_checkpoint_map a) i).from_block ≤ wanted) →
      ∃ cp, cp.from_block ≤ wanted ∧
        (∀ i, i < countOf s a →
          (cpAt (s.account_to_checkpoint_map a) i).from_block ≤ wanted →
          (cpAt (s.account_to_checkpoint_map a) i).from_block ≤
            cp.from_block) ∧
        get_checkpoint_at_block s a wanted current = some (some cp) ∧
        get_votes_at_block (aawOf o s) a wanted current = some cp.votes) ∧
    ((∀ i, i < countOf s a →
        wanted < (cpAt (s.account_to_checkpoint_map a) i).from_block) →
      get_checkpoint_at_block s a wanted current = some none ∧
      (countOf s a ≠ 0 →
        get_votes_at_block (aawOf o s) a wanted current =
          some (cpAt (s.account_to_checkpoint_map a) 0).votes)) := by
  constructor
  · rintro ⟨i0, hi0, hfbi0⟩
    have h0 : countOf s a ≠ 0 := by omega
    have hfb00 : (cpAt (s.account_to_checkpoint_map a) 0).from_block ≤
        wanted := le_trans (hsort i0 hi0 0 (Nat.zero_le _)) hfbi0
    have hfloor := searchLoop_floor (s.account_to_checkpoint_map a) wanted
      (countOf s a) hpop hsort (countOf s a) 0 (countOf s a - 1)
      (by omega) (by omega) (by omega) hfb00
      (fun i h1 h2 => absurd h2 (by omega))
    rcases hfloor with ⟨cp, hcp1, hcp2, hres⟩
    refine ⟨cp, hcp1, hcp2, ?_, ?_⟩
    · dsimp only [get_checkpoint_at_block]
      rw [if_neg (show ¬ wanted > current by omega), if_neg h0]
      split
      · rename_i heq
        have hs0 := hpop 0 (by omega)
        rw [heq] at hs0
        exact absurd hs0 (by simp)
      · rename_i first heq
        have hfirst : first = cpAt (s.account_to_checkpoint_map a) 0 := by
          simp [cpAt, heq]
        rw [if_neg (show ¬ first.from_block > wanted by
          rw [hfirst]; omega)]
        rcases hres with hres | ⟨idx, hidx, hmidx, hres⟩
        · rw [hres]
        · rw [hres]
          simp [hmidx]
    · dsimp only [get_votes_at_block, aawOf]
      rw [show (s.num_of_checkpoints_per_account a).getD 0 = countOf s a
        from rfl]
      rw [if_neg (show ¬ wanted > current by omega), if_neg h0]
      rcases hres with hres | ⟨idx, hidx, hmidx, hres⟩
      · rw [hres]
      · rw [hres]
        simp [hmidx]
  · intro hall
    constructor
    · dsimp only [get_checkpoint_at_block]
      rw [if_neg (show ¬ wanted > current by omega)]
      by_cases h0 : countOf s a = 0
      · rw [if_pos h0]
      · rw [if_neg h0]
        split
        · rename_i heq
          have hs0 := hpop 0 (by omega)
          rw [heq] at hs0
          exact absurd hs0 (by simp)
        · rename_i first heq
          have hfirst : first = cpAt (s.account_to_checkpoint_map a) 0 := by
            simp [cpAt, heq]
          rw [if_pos (show first.from_block > wanted by
            rw [hfirst]; exact hall 0 (by omega))]
    · intro h0
      dsimp only [get_votes_at_block, aawOf]
      rw [show (s.num_of_checkpoints_per_account a).getD 0 = countOf s a
        from rfl]
      rw [if_neg (show ¬ wanted > current by omega), if_neg h0]
      have hexit := searchLoop_all_greater (s.account_to_checkpoint_map a)
        wanted (countOf s a) 0 (countOf s a - 1) (by omega)
        (fun i h1 h2 => hpop i (by omega))
        (fun i h1 h2 => hall i (by omega))
      rw [hexit]
      obtain ⟨c0, hc0⟩ := Option.isSome_iff_exists.mp (hpop 0 (by omega))
      simp [cpAt, hc0]

/-- Witness for C2 on a store whose account 1 has checkpoints (3, 1) and
(7, 2), queried at time step 5 with current time step 9: the floor
checkpoint is (3, 1). -/
theorem c2_witness :
    (∀ i, i < countOf cdTwo 1 →
      (cdTwo.account_to_checkpoint_map 1 i).isSome) ∧
    (5 : Nat) ≤ 9 ∧
    ∃ cp, cp.from_block ≤ 5 ∧
      (∀ i, i < countOf cdTwo 1 →
        (cpAt (cdTwo.account_to_checkpoint_map 1) i).from_block ≤ 5 →
        (cpAt (cdTwo.account_to_checkpoint_map 1) i).from_block ≤
          cp.from_block) ∧
      get_checkpoint_at_block cdTwo 1 5 9 = some (some cp) ∧
      get_votes_at_block (aawOf 0 cdTwo) 1 5 9 = some cp.votes :=
  ⟨by decide, by decide,
    (c2_floor_search_correct cdTwo 1 5 9 0 (by decide) (by decide)
      (by decide)).1 ⟨0, by decide, by decide⟩⟩

/-- C6 (code bug): on the spec's worked-example log — time steps
[10, 10, 25, 40], weights [1, 2, 1, 2] for account 1, current time step
100 — the weight query get_votes_at_block answers 2, 2, 1, 2 at queried
time steps 10, 24, 25, 100 as the claim states, but answers 1 (the weight
of checkpoint 0) instead of 0 at queried time step 5, because it lacks the
index-0 short-circuit; the store-level get_checkpoint_at_block does answer
None at time step 5. -/
theorem c6_worked_example :
    get_votes_at_block (aawOf 0 cdC6) 1 5 100 = some 1 ∧
    get_votes_at_block (aawOf 0 cdC6) 1 10 100 = some 2 ∧
    get_votes_at_block (aawOf 0 cdC6) 1 24 100 = some 2 ∧
    get_votes_at_block (aawOf 0 cdC6) 1 25 100 = some 1 ∧
    get_votes_at_block (aawOf 0 cdC6) 1 100 100 = some 2 ∧
    get_checkpoint_at_block cdC6 1 5 100 = some none ∧
    get_checkpoint_at_block cdC6 1 10 100 = some (some ⟨10, 2⟩) ∧
    get_checkpoint_at_block cdC6 1 24 100 = some (some ⟨10, 2⟩) ∧
    get_checkpoint_at_block cdC6 1 25 100 = some (some ⟨25, 1⟩) ∧
    get_checkpoint_at_block cdC6 1 100 100 = some (some ⟨40, 2⟩) := by
  decide
